import Mathlib

/-
Verification development for the client-side streaming state machine of the
procurement-document analysis application.

The definitions below are shallow embeddings of the TypeScript source:
  - frontend/lib/api-client.ts        (sendChatMessageStream decode loop)
  - frontend/hooks/use-procurement-analysis.ts
                                      (session state hook: uploadFiles,
                                       generateReport, declineReport,
                                       sendChatMessage, closeChatStream,
                                       onThinkingLog handler)

Conventions used throughout:
  - JS strings that are only compared or concatenated are Lean String values.
  - The raw byte / code-point level of the chat stream decoder uses List Nat
    (bytes are < 256, code points are Unicode scalar values).
  - Date.now() is modelled as an explicit parameter `now : Int`.
  - React useState setters are modelled by explicit record updates on a
    state record; useRef cells are fields of the same record, which is
    faithful because all updates happen on a single event loop.
  - JSON.parse is a host-runtime function; where a handler only needs the
    success or failure of JSON.parse (and, for the server `error` event, the
    extracted error field), the embedding is parameterised by an arbitrary
    such function, and the theorems hold for every choice of it.
-/

namespace ProcurementAI

/-! ## Data model (frontend/types and hook state)

`ThinkingLog` mirrors the ThinkingLog interface used by the onThinkingLog
handler; `ChatMessageEntry` mirrors ChatMessage; `MessageEntry` mirrors
Message. -/

structure ThinkingLog where
  id : String
  agent : String
  message : String
  timestamp : Int
  status : String
  deriving DecidableEq, Repr

structure ChatMessageEntry where
  id : String
  role : String
  content : String
  timestamp : Int
  deriving DecidableEq, Repr

structure MessageEntry where
  id : String
  type : String
  content : String
  fileName : String
  timestamp : Int
  deriving DecidableEq, Repr

inductive SimState
  | idle
  | uploading
  | thinking
  | verdict
  | generating
  | complete
  deriving DecidableEq, Repr

/-- Claim-relevant part of the hook state that the chat turn touches.
`activeChatMessageId` models activeChatMessageIdRef.current,
`error` models the error state (the lastError of the spec). -/
structure ChatState where
  chatMessages : List ChatMessageEntry
  error : Option String
  isChatLoading : Bool
  isChatInFlight : Bool
  activeChatMessageId : Option String
  deriving DecidableEq, Repr

/-! ## Thinking log ingestion

Embeds the setThinkingLogs updater inside the onThinkingLog handler of
uploadFiles (use-procurement-analysis.ts lines 144 to 159): if some existing
log has the same id the previous list is returned unchanged, otherwise the
new log is appended. -/

/-- The whitespace set of ECMAScript (WhiteSpace and LineTerminator code
points), as used by String.prototype.trim. -/
def isJsWhitespace (c : Char) : Bool :=
  let n := c.toNat
  n = 9 || n = 10 || n = 11 || n = 12 || n = 13 || n = 32 || n = 160 ||
  n = 0x1680 || (0x2000 ≤ n && n ≤ 0x200A) || n = 0x2028 || n = 0x2029 ||
  n = 0x202F || n = 0x205F || n = 0x3000 || n = 0xFEFF

/-- In JS, s.trim() is falsy exactly when s consists solely of whitespace. -/
def jsTrimIsEmpty (s : String) : Bool := s.toList.all isJsWhitespace

def ingestThinkingLog (prev : List ThinkingLog) (log : ThinkingLog) :
    List ThinkingLog :=
  if prev.any (fun l => l.id = log.id) then prev
  else prev ++ [log]

/-! ## Chat turn controller (sendChatMessage, use-procurement-analysis.ts
lines 239 to 373)

One invocation of sendChatMessage is modelled end to end.  The stream
callbacks registered with sendChatMessageStream are embedded as pure state
transformers; the events the decode loop delivers during the turn are a
`List TurnEvent`, and the way the awaited call ends is a `Termination`:
`normal` when the stream ends without throwing, `aborted` when the await
throws a DOMException named AbortError, `failed msg` when it throws any
other error whose message is msg (an APIError from the decoder or a network
failure). -/

inductive TurnEvent
  | start (messageId : String) (timestamp : Int)
  | delta (messageId : String) (deltaText : String)
  | complete (messageId : String) (response : String) (timestamp : Int)
  | error (message : String)
  deriving DecidableEq, Repr

inductive Termination
  | normal
  | aborted
  | failed (message : String)
  deriving DecidableEq, Repr

/-- The closeChatStream callback (lines 71 to 79): aborts the controller,
clears the active message id and both chat flags. -/
def closeChatStream (st : ChatState) : ChatState :=
  { st with
    activeChatMessageId := none
    isChatLoading := false
    isChatInFlight := false }

/-- The onDelta handler (lines 280 to 311): a delta whose message id does not
match the active id is discarded; otherwise, if no transcript entry with that
id exists, a new assistant entry is created only when the delta text is
non-empty after trimming; if the entry exists the delta is appended to its
content.  `now` models Date.now() at the moment the entry is created. -/
def onDeltaHandler (now : Int) (st : ChatState) (messageId deltaText : String) :
    ChatState :=
  if st.activeChatMessageId ≠ some messageId then st
  else
    if st.chatMessages.any (fun cm => cm.id = messageId) = false then
      if jsTrimIsEmpty deltaText then st
      else
        { st with
          isChatLoading := false
          chatMessages := st.chatMessages ++
            [{ id := messageId, role := "assistant", content := deltaText,
               timestamp := now }] }
    else
      { st with
        isChatLoading := false
        chatMessages := st.chatMessages.map (fun cm =>
          if cm.id = messageId then { cm with content := cm.content ++ deltaText }
          else cm) }

/-- The matching branch of the onComplete handler (lines 312 to 343): the
entry with the active id has its content replaced by the authoritative final
response and its timestamp set; if no entry exists yet one is appended; the
active id is cleared and both chat flags are lowered. -/
def finalizeComplete (st : ChatState) (messageId response : String)
    (timestamp : Int) : ChatState :=
  { st with
    chatMessages :=
      if st.chatMessages.any (fun cm => cm.id = messageId) then
        st.chatMessages.map (fun cm =>
          if cm.id = messageId then
            { cm with content := response, timestamp := timestamp }
          else cm)
      else
        st.chatMessages ++
          [{ id := messageId, role := "assistant", content := response,
             timestamp := timestamp }]
    activeChatMessageId := none
    isChatLoading := false
    isChatInFlight := false }

/-- One decoded stream event applied to the hook state together with the
local streamFinished flag, exactly as the four callbacks registered in
sendChatMessage do. -/
def applyTurnEvent (now : Int) (st : ChatState) (streamFinished : Bool) :
    TurnEvent → ChatState × Bool
  | .start messageId _ =>
      ({ st with activeChatMessageId := some messageId }, streamFinished)
  | .delta messageId deltaText =>
      (onDeltaHandler now st messageId deltaText, streamFinished)
  | .complete messageId response timestamp =>
      if st.activeChatMessageId = some messageId then
        (finalizeComplete st messageId response timestamp, true)
      else (st, streamFinished)
  | .error message =>
      ({ st with
          error := some message
          activeChatMessageId := none
          isChatLoading := false
          isChatInFlight := false }, true)

/-- Fold of the registered callbacks over the events of one turn. -/
def runTurnEvents (now : Int) (events : List TurnEvent)
    (p : ChatState × Bool) : ChatState × Bool :=
  events.foldl (fun q e => applyTurnEvent now q.1 q.2 e) p

/-- The state at the moment sendChatMessageStream is awaited (lines 253 to
270): error cleared, optimistic user entry appended, loading and in-flight
flags raised.  The user entry id interpolates Date.now(). -/
def chatTurnStart (now : Int) (st : ChatState) (message : String) : ChatState :=
  { st with
    error := none
    chatMessages := st.chatMessages ++
      [{ id := "chat-" ++ toString now ++ "-user", role := "user",
         content := message, timestamp := now }]
    isChatLoading := true
    isChatInFlight := true }

/-- One whole invocation of sendChatMessage (lines 239 to 373).  The guards
come first: a missing threadId sets the error and returns; a turn already in
flight returns unchanged.  Otherwise the turn starts, the delivered events
run through the registered callbacks, and the termination of the awaited
stream is handled by the code after the await (clearing the flags when no
terminal event arrived), by the AbortError arm of the catch (plain return),
or by the general arm of the catch (error surfaced, flags cleared). -/
def runChatTurn (now : Int) (st : ChatState) (threadId : Option String)
    (message : String) (events : List TurnEvent) (term : Termination) :
    ChatState :=
  match threadId with
  | none => { st with error := some "No analysis session found" }
  | some _ =>
    if st.isChatInFlight then st
    else
      let p := runTurnEvents now events (chatTurnStart now st message, false)
      match term with
      | .normal =>
          if p.2 then p.1
          else
            { p.1 with
              activeChatMessageId := none
              isChatLoading := false
              isChatInFlight := false }
      | .aborted => p.1
      | .failed message =>
          { p.1 with
            error := some message
            isChatLoading := false
            isChatInFlight := false
            activeChatMessageId := none }

/-! ## Turn conformance and observables (for the terminal exclusivity claim)

A turn of the chat stream follows the backend contract of the spec: a
chat_start announcing the message id, then deltas for that id, then either a
chat_complete for that id (after which the server ends the stream, so the
await resolves normally) or a server error event (which the decoder turns
into a throw); a turn cut short by a user abort or a transport failure
delivers only a prefix with no terminal event. -/

def deltasOf (messageId : String) (ds : List String) : List TurnEvent :=
  ds.map (fun d => TurnEvent.delta messageId d)

def ConformantTurn (events : List TurnEvent) (term : Termination) : Prop :=
  ((events = []
      ∨ ∃ mid ts ds, events = TurnEvent.start mid ts :: deltasOf mid ds)
    ∧ (term = Termination.aborted ∨ ∃ e, term = Termination.failed e))
  ∨ (∃ mid ts ds resp ts2,
      events = TurnEvent.start mid ts ::
          (deltasOf mid ds ++ [TurnEvent.complete mid resp ts2])
        ∧ term = Termination.normal)
  ∨ (∃ mid ts ds e,
      events = TurnEvent.start mid ts ::
          (deltasOf mid ds ++ [TurnEvent.error e])
        ∧ term = Termination.failed e)

/-- The turn produced a finalized transcript entry: a chat_complete event was
delivered and the transcript holds an entry with its id carrying the
authoritative response text and timestamp. -/
def FinalizedEntry (events : List TurnEvent) (st : ChatState) : Prop :=
  ∃ messageId response ts,
    TurnEvent.complete messageId response ts ∈ events
    ∧ ∃ cm ∈ st.chatMessages,
        cm.id = messageId ∧ cm.content = response ∧ cm.timestamp = ts

def ExactlyOneOf (a b c : Prop) : Prop :=
  (a ∧ ¬b ∧ ¬c) ∨ (¬a ∧ b ∧ ¬c) ∨ (¬a ∧ ¬b ∧ c)

/-! ## Chat stream decoder (api-client.ts, sendChatMessageStream lines 259
to 343)

The decode loop reads byte chunks, decodes them incrementally with a
TextDecoder in streaming mode, accumulates the text in a buffer, repeatedly
extracts complete frames up to the blank-line delimiter, trims each raw
frame and hands non-empty ones to processSSEEvent, and after the stream ends
flushes the decoder and processes a trimmed dangling tail once.

The embedding works on List Nat at two levels: bytes (chunk input) and
Unicode code points (decoded text).  The TextDecoder is the WHATWG streaming
UTF-8 decoder: a byte-at-a-time automaton whose state is the pending prefix
of an incomplete sequence, emitting U+FFFD on malformed input and one U+FFFD
for a dangling prefix on flush.  JS string positions are UTF-16 code units,
but every position the loop inspects is next to an ASCII newline or inside
an ASCII prefix, so code-point indexing is equivalent. -/

def utf8StepEmpty (b : Nat) : List Nat × List Nat :=
  if b ≤ 0x7F then ([], [b])
  else if 0xC2 ≤ b ∧ b ≤ 0xF4 then ([b], [])
  else ([], [0xFFFD])

def contLo (lead : Nat) : Nat :=
  if lead = 0xE0 then 0xA0 else if lead = 0xF0 then 0x90 else 0x80

def contHi (lead : Nat) : Nat :=
  if lead = 0xED then 0x9F else if lead = 0xF4 then 0x8F else 0xBF

def utf8Step : List Nat → Nat → List Nat × List Nat
  | [], b => utf8StepEmpty b
  | [l], b =>
    if contLo l ≤ b ∧ b ≤ contHi l then
      if l ≤ 0xDF then ([], [(l - 0xC0) * 64 + (b - 0x80)])
      else ([l, b], [])
    else ((utf8StepEmpty b).1, 0xFFFD :: (utf8StepEmpty b).2)
  | [l, c1], b =>
    if 0x80 ≤ b ∧ b ≤ 0xBF then
      if l ≤ 0xEF then
        ([], [(l - 0xE0) * 4096 + (c1 - 0x80) * 64 + (b - 0x80)])
      else ([l, c1, b], [])
    else ((utf8StepEmpty b).1, 0xFFFD :: (utf8StepEmpty b).2)
  | [l, c1, c2], b =>
    if 0x80 ≤ b ∧ b ≤ 0xBF then
      ([], [(l - 0xF0) * 0x40000 + (c1 - 0x80) * 0x1000 + (c2 - 0x80) * 64
            + (b - 0x80)])
    else ((utf8StepEmpty b).1, 0xFFFD :: (utf8StepEmpty b).2)
  | _, _ => ([], [0xFFFD])

/-- decoder.decode() with no argument at end of stream: an incomplete pending
sequence becomes one replacement character. -/
def utf8Flush (pending : List Nat) : List Nat :=
  if pending.isEmpty then [] else [0xFFFD]

/-- decoder.decode(value, stream true): fold the byte automaton over one
chunk, returning the new pending state and the decoded code points. -/
def decodeBytes : List Nat → List Nat → List Nat × List Nat
  | pending, [] => (pending, [])
  | pending, b :: bs =>
    ((decodeBytes (utf8Step pending b).1 bs).1,
      (utf8Step pending b).2 ++ (decodeBytes (utf8Step pending b).1 bs).2)

/-- The inner while loop of the decode loop: repeatedly cut the buffer at the
first occurrence of two consecutive newlines, returning the complete raw
frames in order and the remaining buffer (which never contains the
delimiter). -/
def splitFrames : List Nat → List (List Nat) × List Nat
  | [] => ([], [])
  | [c] => ([], [c])
  | c :: d :: rest =>
    if c = 10 ∧ d = 10 then
      ([] :: (splitFrames rest).1, (splitFrames rest).2)
    else
      match splitFrames (d :: rest) with
      | (f :: fs, r) => ((c :: f) :: fs, r)
      | ([], r) => ([], c :: r)

/-- isJsWhitespace on a raw code point. -/
def isJsWhitespaceNat (n : Nat) : Bool :=
  n = 9 || n = 10 || n = 11 || n = 12 || n = 13 || n = 32 || n = 160 ||
  n = 0x1680 || (0x2000 ≤ n && n ≤ 0x200A) || n = 0x2028 || n = 0x2029 ||
  n = 0x202F || n = 0x205F || n = 0x3000 || n = 0xFEFF

/-- String.prototype.trim on a code point list. -/
def trimCP (l : List Nat) : List Nat :=
  ((l.dropWhile isJsWhitespaceNat).reverse.dropWhile isJsWhitespaceNat).reverse

/-- String.prototype.trimEnd on a code point list. -/
def trimEndCP (l : List Nat) : List Nat :=
  (l.reverse.dropWhile isJsWhitespaceNat).reverse

/-- The mutable decode-loop state: the TextDecoder pending bytes and the text
buffer. -/
structure ChatStreamState where
  pending : List Nat
  buffer : List Nat
  deriving DecidableEq, Repr

/-- One iteration of the outer read loop for one non-final chunk: decode the
bytes, append to the buffer, extract all complete frames, and keep the
remainder; the extracted raw frames are trimmed and empty ones dropped, as
the guard around processSSEEvent does. -/
def processChunk (cs : ChatStreamState) (chunk : List Nat) :
    ChatStreamState × List (List Nat) :=
  ({ pending := (decodeBytes cs.pending chunk).1
     buffer := (splitFrames (cs.buffer ++ (decodeBytes cs.pending chunk).2)).2 },
   ((splitFrames (cs.buffer ++ (decodeBytes cs.pending chunk).2)).1.map
      trimCP).filter (fun f => !f.isEmpty))

def runChunksAux : ChatStreamState → List (List Nat) →
    ChatStreamState × List (List Nat)
  | cs, [] => (cs, [])
  | cs, c :: rest =>
    ((runChunksAux (processChunk cs c).1 rest).1,
      (processChunk cs c).2 ++ (runChunksAux (processChunk cs c).1 rest).2)

/-- The full sequence of trimmed non-empty raw frames handed to
processSSEEvent over the life of the stream: every chunk in order, then the
flushed dangling tail if it trims to something non-empty. -/
def streamFrames (chunks : List (List Nat)) : List (List Nat) :=
  (runChunksAux ⟨[], []⟩ chunks).2 ++
    (if (trimCP ((runChunksAux ⟨[], []⟩ chunks).1.buffer ++
          utf8Flush (runChunksAux ⟨[], []⟩ chunks).1.pending)).isEmpty
      then []
      else [trimCP ((runChunksAux ⟨[], []⟩ chunks).1.buffer ++
          utf8Flush (runChunksAux ⟨[], []⟩ chunks).1.pending)])

/-- rawEvent.split with the newline separator. -/
def splitOn10 : List Nat → List (List Nat)
  | [] => [[]]
  | c :: rest =>
    if c = 10 then [] :: splitOn10 rest
    else
      match splitOn10 rest with
      | s :: ss => (c :: s) :: ss
      | [] => [[c]]

/-- A Lean string literal as a code point list. -/
def strCP (s : String) : List Nat := s.toList.map Char.toNat

/-- The line loop of processSSEEvent: per raw line, trimEnd it, skip blank
and comment lines, record the last event name, collect data line fragments.
The initial event name is the SSE default. -/
def parseFrameLines (rawEvent : List Nat) : List Nat × List (List Nat) :=
  (splitOn10 rawEvent).foldl
    (fun acc rawLine =>
      if (trimEndCP rawLine).isEmpty then acc
      else if (trimEndCP rawLine).head? = some 58 then acc
      else if (strCP "event:").isPrefixOf (trimEndCP rawLine) then
        (trimCP ((trimEndCP rawLine).drop 6), acc.2)
      else if (strCP "data:").isPrefixOf (trimEndCP rawLine) then
        (acc.1, acc.2 ++ [trimCP ((trimEndCP rawLine).drop 5)])
      else acc)
    (strCP "message", [])

/-- dataLines.join with a newline separator. -/
def joinWith10 : List (List Nat) → List Nat
  | [] => []
  | [l] => l
  | l :: ls => l ++ 10 :: joinWith10 ls

/-- One dispatched callback of sendChatMessageStream.  The payload carried by
onStart, onDelta and onComplete is the joined data text whose JSON.parse
result the hook receives; since JSON.parse is deterministic, carrying the
text is faithful. -/
inductive ChatCallback
  | onStart (payload : List Nat)
  | onDelta (payload : List Nat)
  | onComplete (payload : List Nat)
  | onError (message : List Nat)
  deriving DecidableEq, Repr

/-- processSSEEvent: frames with no data lines are ignored; a data text that
JSON.parse rejects dispatches onError and throws; otherwise dispatch on the
event name, where the server error event dispatches onError with the error
field of the payload (or the default message) and throws.  The Bool is true
when the call throws, ending the decode loop.  `jsonOk` is whether
JSON.parse accepts a text; `errorFieldOf` is the JS expression
payload.error or the fallback message. -/
def processSSEEvent (jsonOk : List Nat → Bool)
    (errorFieldOf : List Nat → List Nat) (rawEvent : List Nat) :
    List ChatCallback × Bool :=
  if (parseFrameLines rawEvent).2.isEmpty then ([], false)
  else
    if jsonOk (joinWith10 (parseFrameLines rawEvent).2) = false then
      ([ChatCallback.onError (strCP "Failed to parse stream payload")], true)
    else if (parseFrameLines rawEvent).1 = strCP "chat_start" then
      ([ChatCallback.onStart (joinWith10 (parseFrameLines rawEvent).2)], false)
    else if (parseFrameLines rawEvent).1 = strCP "chat_delta" then
      ([ChatCallback.onDelta (joinWith10 (parseFrameLines rawEvent).2)], false)
    else if (parseFrameLines rawEvent).1 = strCP "chat_complete" then
      ([ChatCallback.onComplete (joinWith10 (parseFrameLines rawEvent).2)],
        false)
    else if (parseFrameLines rawEvent).1 = strCP "error" then
      ([ChatCallback.onError
          (errorFieldOf (joinWith10 (parseFrameLines rawEvent).2))], true)
    else ([], false)

/-- Dispatch the extracted frames in order, stopping at the first frame whose
processing throws (the exception propagates out of the decode loop, so no
later frame is ever processed). -/
def dispatchFrames (jsonOk : List Nat → Bool)
    (errorFieldOf : List Nat → List Nat) : List (List Nat) → List ChatCallback
  | [] => []
  | f :: fs =>
    if (processSSEEvent jsonOk errorFieldOf f).2 then
      (processSSEEvent jsonOk errorFieldOf f).1
    else
      (processSSEEvent jsonOk errorFieldOf f).1 ++
        dispatchFrames jsonOk errorFieldOf fs

/-- The sequence of callbacks sendChatMessageStream dispatches when the
response body delivers the given byte chunks. -/
def runChatStream (jsonOk : List Nat → Bool)
    (errorFieldOf : List Nat → List Nat) (chunks : List (List Nat)) :
    List ChatCallback :=
  dispatchFrames jsonOk errorFieldOf (streamFrames chunks)

/-! ## Session operations (uploadFiles, generateReport, declineReport)

`SessionState` gathers the hook state these operations touch.  The result of
the awaited apiClient.submitReview call is a `ReviewOutcome`: success with an
optional gamma_link field, or a rejection whose error message is carried. -/

structure SessionState where
  simState : SimState
  error : Option String
  gammaLink : Option String
  showSplitView : Bool
  messages : List MessageEntry
  deriving DecidableEq, Repr

inductive ReviewOutcome
  | success (gammaLink : Option String)
  | failure (message : String)
  deriving DecidableEq, Repr

structure FileMeta where
  name : String
  deriving DecidableEq, Repr

/-- generateReport (use-procurement-analysis.ts lines 198 to 220): guard on
threadId, then setState generating and setShowSplitView true, await
submitReview; on success store gamma_link when present and setState complete;
on rejection setError and setState verdict. -/
def generateReport (threadId : Option String) (st : SessionState)
    (outcome : ReviewOutcome) : SessionState :=
  match threadId with
  | none => { st with error := some "No analysis session found" }
  | some _ =>
    let pre := { st with simState := SimState.generating, showSplitView := true }
    match outcome with
    | .success gl =>
      match gl with
      | some l => { pre with gammaLink := some l, simState := SimState.complete }
      | none => { pre with simState := SimState.complete }
    | .failure message =>
      { pre with error := some message, simState := SimState.verdict }

/-- declineReport (lines 223 to 236): guard on threadId, await submitReview;
on success setState complete; on rejection setError only. -/
def declineReport (threadId : Option String) (st : SessionState)
    (outcome : ReviewOutcome) : SessionState :=
  match threadId with
  | none => { st with error := some "No analysis session found" }
  | some _ =>
    match outcome with
    | .success _ => { st with simState := SimState.complete }
    | .failure message => { st with error := some message }

/-- The session state at the moment apiClient.submitReview is awaited inside
generateReport (none when the threadId guard returns early and no network
call is made): setState generating and setShowSplitView true have run, and
nothing else. -/
def generateReportPreCall (threadId : Option String) (st : SessionState) :
    Option SessionState :=
  match threadId with
  | none => none
  | some _ =>
      some { st with simState := SimState.generating, showSplitView := true }

/-- The session state at the moment apiClient.submitReview is awaited inside
declineReport: nothing has been mutated before the call. -/
def declineReportPreCall (threadId : Option String) (st : SessionState) :
    Option SessionState :=
  match threadId with
  | none => none
  | some _ => some st

/-- The session state at the moment apiClient.uploadDocuments is awaited
inside uploadFiles (lines 97 to 125): setError null runs first, then the
empty-list guard (which makes no network call), then the synthetic user
message and setState uploading. -/
def uploadFilesPreCall (now : Int) (files : List FileMeta)
    (st : SessionState) : Option SessionState :=
  if files.length = 0 then none
  else
    some { st with
      error := none
      messages := [{
        id := "msg-" ++ toString now ++ "-user"
        type := "user"
        content :=
          if 1 < files.length then
            "Please analyze these procurement documents (" ++
              toString files.length ++ " files)"
          else "Please analyze this procurement document"
        fileName :=
          if 1 < files.length then
            (files.headD { name := "" }).name ++ " +" ++
              toString (files.length - 1) ++ " more"
          else (files.headD { name := "" }).name
        timestamp := now }]
      simState := SimState.uploading }

/-- The chat state at the moment apiClient.sendChatMessageStream is awaited
inside sendChatMessage (none when a guard returns early): this is exactly
chatTurnStart. -/
def sendChatMessagePreCall (now : Int) (threadId : Option String)
    (message : String) (st : ChatState) : Option ChatState :=
  match threadId with
  | none => none
  | some _ =>
    if st.isChatInFlight then none
    else some (chatTurnStart now st message)

/-! ## Sample states used by the witnesses -/

def inFlightSampleState : ChatState :=
  { chatMessages := []
    error := none
    isChatLoading := true
    isChatInFlight := true
    activeChatMessageId := some "m0" }

def completeSampleState : ChatState :=
  { chatMessages := [{ id := "m1", role := "assistant", content := "Be", timestamp := 3 }]
    error := none
    isChatLoading := false
    isChatInFlight := true
    activeChatMessageId := some "m1" }

def staleSampleState : ChatState :=
  { chatMessages := []
    error := none
    isChatLoading := true
    isChatInFlight := true
    activeChatMessageId := none }

def firstDeltaSampleState : ChatState :=
  { chatMessages := []
    error := none
    isChatLoading := true
    isChatInFlight := true
    activeChatMessageId := some "m1" }

def noEntrySampleState : ChatState :=
  { chatMessages := []
    error := none
    isChatLoading := true
    isChatInFlight := true
    activeChatMessageId := some "m1" }

def turnSampleState : ChatState :=
  { chatMessages := []
    error := none
    isChatLoading := false
    isChatInFlight := false
    activeChatMessageId := none }

def erroredSampleSession : SessionState :=
  { simState := SimState.verdict
    error := some "boom"
    gammaLink := none
    showSplitView := true
    messages := [] }

def idleSampleChatState : ChatState :=
  { chatMessages := []
    error := some "old failure"
    isChatLoading := false
    isChatInFlight := false
    activeChatMessageId := none }

/-! # Theorems -/

/-! ## C2: idempotent ingestion of thinking logs -/

theorem ingestThinkingLog_mem_id (prev : List ThinkingLog) (log : ThinkingLog) :
    (ingestThinkingLog prev log).any (fun l => l.id = log.id) = true := by
  unfold ingestThinkingLog
  by_cases h : prev.any (fun l => l.id = log.id) = true
  · rw [if_pos h]; exact h
  · rw [if_neg h]; simp

/-- Claim C2: delivering the same thinking_log event twice (same id) yields a
progressLog identical to delivering it once — the second delivery is a no-op —
and each delivery either leaves the log unchanged (duplicate id) or appends
the entry at the end (arrival order). -/
theorem thinkingLog_ingestion_idempotent (prev : List ThinkingLog)
    (log : ThinkingLog) :
    ingestThinkingLog (ingestThinkingLog prev log) log
        = ingestThinkingLog prev log
      ∧ (ingestThinkingLog prev log = prev
          ∨ ingestThinkingLog prev log = prev ++ [log]) := by
  refine ⟨?_, ?_⟩
  · have h := ingestThinkingLog_mem_id prev log
    conv_lhs => rw [ingestThinkingLog]
    rw [if_pos h]
  · unfold ingestThinkingLog
    by_cases h : prev.any (fun l => l.id = log.id) = true
    · left; rw [if_pos h]
    · right; rw [if_neg h]

/-! ## C4: at most one chat turn in flight -/

/-- Claim C4: invoking sendChatMessage while a turn is in flight is rejected
immediately — the state is returned untouched, so no user entry is appended,
no request is opened and no second active message id can arise. -/
theorem chat_turn_reject_when_in_flight (now : Int) (st : ChatState)
    (threadId message : String) (events : List TurnEvent) (term : Termination)
    (h : st.isChatInFlight = true) :
    runChatTurn now st (some threadId) message events term = st := by
  unfold runChatTurn
  rw [if_pos h]

theorem chat_turn_reject_when_in_flight_witness :
    runChatTurn 0 inFlightSampleState (some "t1") "hello"
      [TurnEvent.start "m1" 2, TurnEvent.delta "m1" "x"] Termination.normal
      = inFlightSampleState :=
  chat_turn_reject_when_in_flight 0 _ "t1" "hello" _ _ rfl

/-! ## C6: stale delta rejection -/

/-- Claim C6: a chat_delta whose message id differs from the active id is
discarded without mutating anything, and in particular after closeChatStream
has cleared the active id (cancellation) every late delta is discarded. -/
theorem stale_delta_rejected (now : Int) (st : ChatState)
    (messageId deltaText : String)
    (h : st.activeChatMessageId ≠ some messageId) :
    onDeltaHandler now st messageId deltaText = st
      ∧ ∀ st2 : ChatState,
          onDeltaHandler now (closeChatStream st2) messageId deltaText
            = closeChatStream st2 := by
  refine ⟨?_, ?_⟩
  · unfold onDeltaHandler
    rw [if_pos h]
  · intro st2
    unfold onDeltaHandler
    have hnone : (closeChatStream st2).activeChatMessageId = none := rfl
    rw [if_pos (by rw [hnone]; exact fun hc => Option.noConfusion hc)]

theorem stale_delta_rejected_witness :
    onDeltaHandler 0 staleSampleState "m1" "late" = staleSampleState :=
  (stale_delta_rejected 0 staleSampleState "m1" "late"
    (fun hc => Option.noConfusion hc)).1

/-! ## C5 and C10: authoritative finalization on chat_complete -/

/-- Shared characterisation of the matching chat_complete branch. -/
theorem finalizeComplete_spec (st : ChatState) (messageId response : String)
    (timestamp : Int) :
    (∀ cm ∈ (finalizeComplete st messageId response timestamp).chatMessages,
        cm.id = messageId → cm.content = response ∧ cm.timestamp = timestamp)
    ∧ (∃ cm ∈ (finalizeComplete st messageId response timestamp).chatMessages,
        cm.id = messageId ∧ cm.content = response ∧ cm.timestamp = timestamp)
    ∧ (finalizeComplete st messageId response timestamp).activeChatMessageId = none
    ∧ (finalizeComplete st messageId response timestamp).isChatInFlight = false
    ∧ (finalizeComplete st messageId response timestamp).isChatLoading = false
    ∧ (finalizeComplete st messageId response timestamp).error = st.error := by
  unfold finalizeComplete
  by_cases h : st.chatMessages.any (fun cm => cm.id = messageId) = true
  · rw [if_pos h]
    refine ⟨?_, ?_, rfl, rfl, rfl, rfl⟩
    · intro cm hmem hid
      rw [List.mem_map] at hmem
      obtain ⟨cm0, hcm0, hf⟩ := hmem
      by_cases h0 : cm0.id = messageId
      · rw [if_pos h0] at hf
        subst hf
        exact ⟨rfl, rfl⟩
      · rw [if_neg h0] at hf
        subst hf
        exact absurd hid h0
    · simp only [List.any_eq_true, decide_eq_true_eq] at h
      obtain ⟨cm0, hcm0, hid⟩ := h
      exact ⟨{ cm0 with content := response, timestamp := timestamp },
        List.mem_map.mpr ⟨cm0, hcm0, by simp [hid]⟩, hid, rfl, rfl⟩
  · rw [if_neg h]
    have hall : ∀ cm ∈ st.chatMessages, ¬ cm.id = messageId := by
      intro cm hcm hid
      exact h (List.any_eq_true.mpr ⟨cm, hcm, by simp [hid]⟩)
    refine ⟨?_, ?_, rfl, rfl, rfl, rfl⟩
    · intro cm hmem hid
      rcases List.mem_append.mp hmem with hin | hone
      · exact absurd hid (hall cm hin)
      · rw [List.mem_singleton] at hone
        subst hone
        exact ⟨rfl, rfl⟩
    · exact ⟨_, List.mem_append.mpr (Or.inr (List.mem_singleton.mpr rfl)),
        rfl, rfl, rfl⟩

/-- Claim C5: a chat_complete whose message id matches the active id sets the
entry content to the authoritative final response (whatever deltas had
accumulated) and its timestamp to the event value, makes sure such an entry
exists, clears the active id, lowers the in-flight flag, sets the
streamFinished flag, and does not touch the error field. -/
theorem chat_complete_authoritative (now ts : Int) (st : ChatState)
    (streamFinished : Bool) (messageId response : String)
    (h : st.activeChatMessageId = some messageId) :
    (∀ cm ∈ (applyTurnEvent now st streamFinished
        (TurnEvent.complete messageId response ts)).1.chatMessages,
        cm.id = messageId → cm.content = response ∧ cm.timestamp = ts)
    ∧ (∃ cm ∈ (applyTurnEvent now st streamFinished
        (TurnEvent.complete messageId response ts)).1.chatMessages,
        cm.id = messageId ∧ cm.content = response ∧ cm.timestamp = ts)
    ∧ (applyTurnEvent now st streamFinished
        (TurnEvent.complete messageId response ts)).1.activeChatMessageId = none
    ∧ (applyTurnEvent now st streamFinished
        (TurnEvent.complete messageId response ts)).1.isChatInFlight = false
    ∧ (applyTurnEvent now st streamFinished
        (TurnEvent.complete messageId response ts)).1.error = st.error
    ∧ (applyTurnEvent now st streamFinished
        (TurnEvent.complete messageId response ts)).2 = true := by
  have hs := finalizeComplete_spec st messageId response ts
  simp only [applyTurnEvent]
  rw [if_pos h]
  exact ⟨hs.1, hs.2.1, hs.2.2.1, hs.2.2.2.1, hs.2.2.2.2.2, rfl⟩

theorem chat_complete_authoritative_witness :
    (∀ cm ∈ (applyTurnEvent 0 completeSampleState false
        (TurnEvent.complete "m1" "Because of X" 7)).1.chatMessages,
        cm.id = "m1" → cm.content = "Because of X" ∧ cm.timestamp = 7)
    ∧ (∃ cm ∈ (applyTurnEvent 0 completeSampleState false
        (TurnEvent.complete "m1" "Because of X" 7)).1.chatMessages,
        cm.id = "m1" ∧ cm.content = "Because of X" ∧ cm.timestamp = 7)
    ∧ (applyTurnEvent 0 completeSampleState false
        (TurnEvent.complete "m1" "Because of X" 7)).1.activeChatMessageId = none
    ∧ (applyTurnEvent 0 completeSampleState false
        (TurnEvent.complete "m1" "Because of X" 7)).1.isChatInFlight = false
    ∧ (applyTurnEvent 0 completeSampleState false
        (TurnEvent.complete "m1" "Because of X" 7)).1.error = completeSampleState.error
    ∧ (applyTurnEvent 0 completeSampleState false
        (TurnEvent.complete "m1" "Because of X" 7)).2 = true :=
  chat_complete_authoritative 0 7 completeSampleState false "m1" "Because of X" rfl

/-- Claim C10: a matching chat_complete with no existing transcript entry for
its id appends a fresh assistant entry carrying the final response text and
the event timestamp, and still marks the stream finished. -/
theorem chat_complete_creates_entry (now ts : Int) (st : ChatState)
    (streamFinished : Bool) (messageId response : String)
    (h : st.activeChatMessageId = some messageId)
    (hno : st.chatMessages.any (fun cm => cm.id = messageId) = false) :
    (applyTurnEvent now st streamFinished
        (TurnEvent.complete messageId response ts)).1.chatMessages
      = st.chatMessages ++
          [{ id := messageId, role := "assistant", content := response,
             timestamp := ts }]
    ∧ (applyTurnEvent now st streamFinished
        (TurnEvent.complete messageId response ts)).2 = true := by
  simp only [applyTurnEvent]
  rw [if_pos h]
  unfold finalizeComplete
  refine ⟨?_, rfl⟩
  show (if st.chatMessages.any (fun cm => cm.id = messageId) = true then _ else _) = _
  rw [if_neg (by rw [hno]; exact fun hc => Bool.noConfusion hc)]

theorem chat_complete_creates_entry_witness :
    (applyTurnEvent 0 noEntrySampleState false
        (TurnEvent.complete "m1" "Because of X" 7)).1.chatMessages
      = [{ id := "m1", role := "assistant", content := "Because of X",
           timestamp := 7 }]
    ∧ (applyTurnEvent 0 noEntrySampleState false
        (TurnEvent.complete "m1" "Because of X" 7)).2 = true :=
  chat_complete_creates_entry 0 7 noEntrySampleState false "m1" "Because of X"
    rfl rfl

/-! ## C7: first-delta entry creation -/

/-- Claim C7: for a chat_delta matching the active id, when no entry with that
id exists a new assistant entry is created exactly when the delta text is
non-empty after trimming (an empty first delta changes nothing), and when the
entry exists the delta text is appended to its content. -/
theorem first_delta_entry_creation (now : Int) (st : ChatState)
    (messageId deltaText : String)
    (h : st.activeChatMessageId = some messageId) :
    (st.chatMessages.any (fun cm => cm.id = messageId) = false →
        (jsTrimIsEmpty deltaText = true →
          onDeltaHandler now st messageId deltaText = st)
      ∧ (jsTrimIsEmpty deltaText = false →
          (onDeltaHandler now st messageId deltaText).chatMessages
            = st.chatMessages ++
                [{ id := messageId, role := "assistant", content := deltaText,
                   timestamp := now }]))
    ∧ (st.chatMessages.any (fun cm => cm.id = messageId) = true →
        (onDeltaHandler now st messageId deltaText).chatMessages
          = st.chatMessages.map (fun cm =>
              if cm.id = messageId then
                { cm with content := cm.content ++ deltaText }
              else cm)) := by
  unfold onDeltaHandler
  rw [if_neg (fun hne => hne h)]
  refine ⟨fun hno => ⟨fun htrim => ?_, fun htrim => ?_⟩, fun hyes => ?_⟩
  · rw [if_pos hno, if_pos htrim]
  · rw [if_pos hno, if_neg (by rw [htrim]; exact fun hc => Bool.noConfusion hc)]
  · rw [if_neg (by rw [hyes]; exact fun hc => Bool.noConfusion hc)]

theorem first_delta_entry_creation_witness :
    (onDeltaHandler 5 firstDeltaSampleState "m1" "Hi").chatMessages
      = [{ id := "m1", role := "assistant", content := "Hi", timestamp := 5 }]
    ∧ onDeltaHandler 5 firstDeltaSampleState "m1" "" = firstDeltaSampleState :=
  ⟨((first_delta_entry_creation 5 firstDeltaSampleState "m1" "Hi" rfl).1
      rfl).2 (by decide),
    ((first_delta_entry_creation 5 firstDeltaSampleState "m1" "" rfl).1
      rfl).1 (by decide)⟩

/-! ## C8: lastError clearing at operation start (corrected)

The spec claims every operation clears lastError before its network call.
uploadFiles and sendChatMessage do (setError null runs before the await),
but generateReport and declineReport never call setError before awaiting
submitReview, so a pre-existing lastError survives into the call. -/

/-- Counterexample to claim C8 as stated: generateReport invoked with a valid
threadId while lastError is non-null reaches its network call with lastError
still set — it is not set to null first. -/
theorem generateReport_keeps_stale_lastError :
    generateReportPreCall (some "t1") erroredSampleSession
        = some { erroredSampleSession with
            simState := SimState.generating, showSplitView := true }
      ∧ erroredSampleSession.error = some "boom"
      ∧ (generateReportPreCall (some "t1") erroredSampleSession).map
            SessionState.error ≠ some none := by
  refine ⟨rfl, rfl, ?_⟩
  decide

/-- Claim C8 as amended: uploadFiles and sendChatMessage set lastError to null
before their network call proceeds, while generateReport and declineReport
leave lastError untouched before awaiting submitReview. -/
theorem lastError_clearing_amended (now : Int) (files : List FileMeta)
    (message threadId : String) (st : SessionState) (cst : ChatState)
    (p r s : SessionState) (q : ChatState) :
    (uploadFilesPreCall now files st = some p → p.error = none)
    ∧ (sendChatMessagePreCall now (some threadId) message cst = some q →
        q.error = none)
    ∧ (generateReportPreCall (some threadId) st = some r → r.error = st.error)
    ∧ (declineReportPreCall (some threadId) st = some s → s.error = st.error) := by
  refine ⟨?_, ?_, ?_, ?_⟩
  · intro h
    unfold uploadFilesPreCall at h
    by_cases hl : files.length = 0
    · rw [if_pos hl] at h
      exact absurd h (fun hc => Option.noConfusion hc)
    · rw [if_neg hl] at h
      obtain rfl := Option.some.inj h
      rfl
  · intro h
    unfold sendChatMessagePreCall at h
    by_cases hf : cst.isChatInFlight = true
    · rw [if_pos hf] at h
      exact absurd h (fun hc => Option.noConfusion hc)
    · rw [if_neg hf] at h
      obtain rfl := Option.some.inj h
      rfl
  · intro h
    obtain rfl := Option.some.inj h
    rfl
  · intro h
    obtain rfl := Option.some.inj h
    rfl

theorem lastError_clearing_amended_witness :
    ({ erroredSampleSession with
        error := none
        messages := [{
          id := "msg-0-user"
          type := "user"
          content := "Please analyze this procurement document"
          fileName := "a.pdf"
          timestamp := 0 }]
        simState := SimState.uploading } : SessionState).error = none
    ∧ (chatTurnStart 0 idleSampleChatState "hi").error = none
    ∧ ({ erroredSampleSession with
          simState := SimState.generating
          showSplitView := true } : SessionState).error
        = erroredSampleSession.error
    ∧ erroredSampleSession.error = erroredSampleSession.error := by
  obtain ⟨h1, h2, h3, h4⟩ := lastError_clearing_amended 0 [{ name := "a.pdf" }]
    "hi" "t1" erroredSampleSession idleSampleChatState
    { erroredSampleSession with
      error := none
      messages := [{
        id := "msg-0-user"
        type := "user"
        content := "Please analyze this procurement document"
        fileName := "a.pdf"
        timestamp := 0 }]
      simState := SimState.uploading }
    { erroredSampleSession with
      simState := SimState.generating
      showSplitView := true }
    erroredSampleSession
    (chatTurnStart 0 idleSampleChatState "hi")
  exact ⟨h1 (by decide), h2 (by decide), h3 (by decide), h4 (by decide)⟩

/-! ## C9: generateReport failure recovery -/

/-- Claim C9: with a non-null threadId, a failing submitReview stores the
error and returns the session to the verdict state (not idle), so it is never
left in generating after a definitive failure; with a null threadId only
lastError is set and nothing else changes. -/
theorem generateReport_failure_recovery (st : SessionState)
    (threadId message : String) (outcome : ReviewOutcome) :
    (generateReport (some threadId) st (ReviewOutcome.failure message)).simState
        = SimState.verdict
    ∧ (generateReport (some threadId) st (ReviewOutcome.failure message)).error
        = some message
    ∧ generateReport none st outcome
        = { st with error := some "No analysis session found" } :=
  ⟨rfl, rfl, rfl⟩

/-! ## C3: terminal exclusivity per chat turn -/

theorem onDeltaHandler_fields (now : Int) (st : ChatState)
    (messageId deltaText : String) :
    (onDeltaHandler now st messageId deltaText).error = st.error
    ∧ (onDeltaHandler now st messageId deltaText).activeChatMessageId
        = st.activeChatMessageId
    ∧ (onDeltaHandler now st messageId deltaText).isChatInFlight
        = st.isChatInFlight := by
  unfold onDeltaHandler
  split
  · exact ⟨rfl, rfl, rfl⟩
  · split
    · split
      · exact ⟨rfl, rfl, rfl⟩
      · exact ⟨rfl, rfl, rfl⟩
    · exact ⟨rfl, rfl, rfl⟩

theorem runTurnEvents_deltas (now : Int) (mid : String) (ds : List String) :
    ∀ (st : ChatState) (streamFinished : Bool),
      (runTurnEvents now (deltasOf mid ds) (st, streamFinished)).1.error = st.error
      ∧ (runTurnEvents now (deltasOf mid ds)
            (st, streamFinished)).1.activeChatMessageId = st.activeChatMessageId
      ∧ (runTurnEvents now (deltasOf mid ds)
            (st, streamFinished)).1.isChatInFlight = st.isChatInFlight
      ∧ (runTurnEvents now (deltasOf mid ds) (st, streamFinished)).2
          = streamFinished := by
  induction ds with
  | nil => intro st streamFinished; exact ⟨rfl, rfl, rfl, rfl⟩
  | cons d ds ih =>
      intro st streamFinished
      have hstep : runTurnEvents now (deltasOf mid (d :: ds)) (st, streamFinished)
          = runTurnEvents now (deltasOf mid ds)
              (onDeltaHandler now st mid d, streamFinished) := rfl
      rw [hstep]
      obtain ⟨e1, e2, e3⟩ := onDeltaHandler_fields now st mid d
      obtain ⟨f1, f2, f3, f4⟩ := ih (onDeltaHandler now st mid d) streamFinished
      exact ⟨f1.trans e1, f2.trans e2, f3.trans e3, f4⟩

theorem runTurnEvents_append (now : Int) (l1 l2 : List TurnEvent)
    (p : ChatState × Bool) :
    runTurnEvents now (l1 ++ l2) p
      = runTurnEvents now l2 (runTurnEvents now l1 p) := by
  simp [runTurnEvents]

theorem not_complete_mem_deltasOf (mid m r : String) (t : Int)
    (ds : List String) : TurnEvent.complete m r t ∉ deltasOf mid ds := by
  simp [deltasOf]

theorem runChatTurn_eq (now : Int) (st0 : ChatState)
    (threadId message : String) (events : List TurnEvent) (term : Termination)
    (h : st0.isChatInFlight = false) :
    runChatTurn now st0 (some threadId) message events term
      = (match term with
        | Termination.normal =>
            if (runTurnEvents now events (chatTurnStart now st0 message, false)).2
            then (runTurnEvents now events (chatTurnStart now st0 message, false)).1
            else
              { (runTurnEvents now events
                  (chatTurnStart now st0 message, false)).1 with
                activeChatMessageId := none
                isChatLoading := false
                isChatInFlight := false }
        | Termination.aborted =>
            (runTurnEvents now events (chatTurnStart now st0 message, false)).1
        | Termination.failed msg =>
            { (runTurnEvents now events
                (chatTurnStart now st0 message, false)).1 with
              error := some msg
              isChatLoading := false
              isChatInFlight := false
              activeChatMessageId := none }) := by
  simp only [runChatTurn]
  rw [if_neg (by rw [h]; exact fun hc => Bool.noConfusion hc)]

/-- Claim C3: for every invocation of sendChatMessage that starts a turn
(threadId present, no turn in flight) and every conformant turn, exactly one
of the three terminal observations holds: a transcript entry finalized by
chat_complete, lastError set, or a silent user-initiated cancellation —
never an error together with a finalized entry, and never none of the
three. -/
theorem chat_turn_terminal_exclusivity (now : Int) (st0 : ChatState)
    (threadId message : String) (events : List TurnEvent) (term : Termination)
    (hflight : st0.isChatInFlight = false)
    (hconf : ConformantTurn events term) :
    ExactlyOneOf
      (FinalizedEntry events
        (runChatTurn now st0 (some threadId) message events term))
      ((runChatTurn now st0 (some threadId) message events term).error ≠ none)
      (term = Termination.aborted) := by
  rcases hconf with ⟨hpre, hterm⟩ |
    ⟨mid, ts, ds, resp, ts2, hev, hterm⟩ | ⟨mid, ts, ds, e, hev, hterm⟩
  · -- prefix turn, no terminal event delivered
    have hnoA : ∀ stx : ChatState, ¬ FinalizedEntry events stx := by
      intro stx hA
      obtain ⟨m, r, t, hmem, _⟩ := hA
      rcases hpre with rfl | ⟨mid, ts, ds, rfl⟩
      · exact List.not_mem_nil _ hmem
      · rcases List.mem_cons.mp hmem with hh | hh
        · exact TurnEvent.noConfusion hh
        · exact not_complete_mem_deltasOf mid m r t ds hh
    rcases hterm with rfl | ⟨e, rfl⟩
    · -- aborted: silent cancellation
      refine Or.inr (Or.inr ⟨hnoA _, ?_, rfl⟩)
      have herr : (runChatTurn now st0 (some threadId) message events
          Termination.aborted).error = none := by
        rw [runChatTurn_eq now st0 threadId message events
          Termination.aborted hflight]
        rcases hpre with rfl | ⟨mid, ts, ds, rfl⟩
        · rfl
        · have hstep : runTurnEvents now
              (TurnEvent.start mid ts :: deltasOf mid ds)
              (chatTurnStart now st0 message, false)
              = runTurnEvents now (deltasOf mid ds)
                  ({ chatTurnStart now st0 message with
                      activeChatMessageId := some mid }, false) := rfl
          show (runTurnEvents now (TurnEvent.start mid ts :: deltasOf mid ds)
              (chatTurnStart now st0 message, false)).1.error = none
          rw [hstep]
          exact (runTurnEvents_deltas now mid ds _ false).1
      exact fun hb => hb herr
    · -- transport failure: lastError set
      refine Or.inr (Or.inl ⟨hnoA _, ?_, fun hc => Termination.noConfusion hc⟩)
      have herr : (runChatTurn now st0 (some threadId) message events
          (Termination.failed e)).error = some e := by
        rw [runChatTurn_eq now st0 threadId message events
          (Termination.failed e) hflight]
      rw [herr]
      exact fun hc => Option.noConfusion hc
  · -- chat_complete delivered, stream ends normally: finalized entry
    subst hterm
    subst hev
    have hqf := runTurnEvents_deltas now mid ds
      ({ chatTurnStart now st0 message with activeChatMessageId := some mid })
      false
    have hfold : runTurnEvents now
        (TurnEvent.start mid ts ::
          (deltasOf mid ds ++ [TurnEvent.complete mid resp ts2]))
        (chatTurnStart now st0 message, false)
        = (finalizeComplete
            (runTurnEvents now (deltasOf mid ds)
              ({ chatTurnStart now st0 message with
                  activeChatMessageId := some mid }, false)).1
            mid resp ts2, true) := by
      have h1 : runTurnEvents now
          (TurnEvent.start mid ts ::
            (deltasOf mid ds ++ [TurnEvent.complete mid resp ts2]))
          (chatTurnStart now st0 message, false)
          = runTurnEvents now
              (deltasOf mid ds ++ [TurnEvent.complete mid resp ts2])
              ({ chatTurnStart now st0 message with
                  activeChatMessageId := some mid }, false) := rfl
      rw [h1, runTurnEvents_append]
      have h2 : ∀ q : ChatState × Bool,
          runTurnEvents now [TurnEvent.complete mid resp ts2] q
            = applyTurnEvent now q.1 q.2 (TurnEvent.complete mid resp ts2) :=
        fun _ => rfl
      rw [h2]
      simp only [applyTurnEvent]
      rw [if_pos (hqf.2.1.trans rfl)]
    have hrun : runChatTurn now st0 (some threadId) message
        (TurnEvent.start mid ts ::
          (deltasOf mid ds ++ [TurnEvent.complete mid resp ts2]))
        Termination.normal
        = finalizeComplete
            (runTurnEvents now (deltasOf mid ds)
              ({ chatTurnStart now st0 message with
                  activeChatMessageId := some mid }, false)).1
            mid resp ts2 := by
      rw [runChatTurn_eq now st0 threadId message _ Termination.normal hflight]
      dsimp only
      rw [hfold]
      rfl
    have hspec := finalizeComplete_spec
      (runTurnEvents now (deltasOf mid ds)
        ({ chatTurnStart now st0 message with
            activeChatMessageId := some mid }, false)).1 mid resp ts2
    refine Or.inl ⟨?_, ?_, fun hc => Termination.noConfusion hc⟩
    · refine ⟨mid, resp, ts2, ?_, ?_⟩
      · exact List.mem_cons_of_mem _
          (List.mem_append_right _ (List.mem_singleton.mpr rfl))
      · rw [hrun]
        exact hspec.2.1
    · intro hb
      apply hb
      rw [hrun]
      exact hspec.2.2.2.2.2.trans (hqf.1.trans rfl)
  · -- server error event: decoder throws, lastError set
    subst hterm
    subst hev
    refine Or.inr (Or.inl ⟨?_, ?_, fun hc => Termination.noConfusion hc⟩)
    · intro hA
      obtain ⟨m, r, t, hmem, _⟩ := hA
      rcases List.mem_cons.mp hmem with hh | hh
      · exact TurnEvent.noConfusion hh
      · rcases List.mem_append.mp hh with hh2 | hh2
        · exact not_complete_mem_deltasOf mid m r t ds hh2
        · rw [List.mem_singleton] at hh2
          exact TurnEvent.noConfusion hh2
    · have herr : (runChatTurn now st0 (some threadId) message
          (TurnEvent.start mid ts ::
            (deltasOf mid ds ++ [TurnEvent.error e]))
          (Termination.failed e)).error = some e := by
        rw [runChatTurn_eq now st0 threadId message _
          (Termination.failed e) hflight]
      rw [herr]
      exact fun hc => Option.noConfusion hc

theorem chat_turn_terminal_exclusivity_witness :
    ExactlyOneOf
      (FinalizedEntry
        [TurnEvent.start "m1" 1, TurnEvent.delta "m1" "Be",
          TurnEvent.complete "m1" "Because of X" 7]
        (runChatTurn 0 turnSampleState (some "t1") "why?"
          [TurnEvent.start "m1" 1, TurnEvent.delta "m1" "Be",
            TurnEvent.complete "m1" "Because of X" 7] Termination.normal))
      ((runChatTurn 0 turnSampleState (some "t1") "why?"
          [TurnEvent.start "m1" 1, TurnEvent.delta "m1" "Be",
            TurnEvent.complete "m1" "Because of X" 7]
          Termination.normal).error ≠ none)
      (Termination.normal = Termination.aborted) :=
  chat_turn_terminal_exclusivity 0 turnSampleState "t1" "why?"
    [TurnEvent.start "m1" 1, TurnEvent.delta "m1" "Be",
      TurnEvent.complete "m1" "Because of X" 7] Termination.normal rfl
    (Or.inr (Or.inl ⟨"m1", 1, ["Be"], "Because of X", 7, rfl, rfl⟩))

/-! ## C1: chunk-boundary invariance of the chat stream decoder -/

example : splitFrames [97, 10, 10, 98] = ([[97]], [98]) := by decide

example : splitFrames [10, 10, 10] = ([[]], [10]) := by decide

example : splitFrames [97, 10, 98, 10, 10, 99] = ([[97, 10, 98]], [99]) := by
  decide

theorem decodeBytes_append (bs1 bs2 p : List Nat) :
    decodeBytes p (bs1 ++ bs2)
      = ((decodeBytes (decodeBytes p bs1).1 bs2).1,
          (decodeBytes p bs1).2 ++ (decodeBytes (decodeBytes p bs1).1 bs2).2) := by
  induction bs1 generalizing p with
  | nil => simp [decodeBytes]
  | cons b bs ih =>
      simp only [List.cons_append, decodeBytes, List.append_eq]
      rw [ih (utf8Step p b).1]
      simp [List.append_assoc]

theorem splitFrames_fst_nil (l : List Nat)
    (h : (splitFrames l).1 = []) : (splitFrames l).2 = l := by
  induction l using splitFrames.induct with
  | case1 => rfl
  | case2 c => rfl
  | case3 c d rest hcd ih =>
      simp only [splitFrames] at h
      rw [if_pos hcd] at h
      simp at h
  | case4 c d rest hcd f fs r hs ih =>
      simp only [splitFrames] at h
      rw [if_neg hcd, hs] at h
      simp at h
  | case5 c d rest hcd r hs ih =>
      have h2 := ih (by rw [hs])
      rw [hs] at h2
      simp only [splitFrames]
      rw [if_neg hcd, hs]
      simpa using h2

theorem splitFrames_append (a b : List Nat) :
    splitFrames (a ++ b)
      = ((splitFrames a).1 ++ (splitFrames ((splitFrames a).2 ++ b)).1,
          (splitFrames ((splitFrames a).2 ++ b)).2) := by
  induction a using splitFrames.induct with
  | case1 => simp [show splitFrames ([] : List Nat) = ([], []) from rfl]
  | case2 c => simp [show ∀ c, splitFrames [c] = ([], [c]) from fun _ => rfl]
  | case3 c d rest hcd ih =>
      obtain ⟨rfl, rfl⟩ := hcd
      have e : ∀ t : List Nat, splitFrames (10 :: 10 :: t)
          = ([] :: (splitFrames t).1, (splitFrames t).2) := by
        intro t
        simp only [splitFrames]
        simp
      rw [List.cons_append, List.cons_append, e, e, ih]
      simp
  | case4 c d rest hcd f fs r hs ih =>
      have e2 : splitFrames (c :: d :: rest) = ((c :: f) :: fs, r) := by
        simp only [splitFrames]
        rw [if_neg hcd, hs]
      have ih2 : splitFrames (d :: (rest ++ b))
          = (f :: (fs ++ (splitFrames (r ++ b)).1), (splitFrames (r ++ b)).2) := by
        rw [List.cons_append] at ih
        rw [ih, hs]
        simp
      have e3 : splitFrames (c :: d :: (rest ++ b))
          = ((c :: f) :: (fs ++ (splitFrames (r ++ b)).1),
              (splitFrames (r ++ b)).2) := by
        simp only [splitFrames]
        rw [if_neg hcd, ih2]
      rw [List.cons_append, List.cons_append, e3, e2]
      simp
  | case5 c d rest hcd r hs ih =>
      have hr : r = d :: rest := by
        have h2 := splitFrames_fst_nil (d :: rest) (by rw [hs])
        rw [hs] at h2
        exact h2
      subst hr
      have e2 : splitFrames (c :: d :: rest) = ([], c :: d :: rest) := by
        simp only [splitFrames]
        rw [if_neg hcd, hs]
      rw [List.cons_append, List.cons_append, e2]
      simp

theorem splitFrames_snd_idem (l : List Nat) :
    splitFrames ((splitFrames l).2) = ([], (splitFrames l).2) := by
  have h := splitFrames_append l []
  simp only [List.append_nil] at h
  have h1 := congrArg Prod.fst h
  simp only at h1
  have h2 : (splitFrames ((splitFrames l).2)).1 = [] := by
    have hlen := congrArg List.length h1
    rw [List.length_append] at hlen
    have : (splitFrames ((splitFrames l).2)).1.length = 0 := by omega
    exact List.eq_nil_of_length_eq_zero this
  have h3 := splitFrames_fst_nil _ h2
  rcases hx : splitFrames ((splitFrames l).2) with ⟨xf, xr⟩
  rw [hx] at h2 h3
  simp only at h2 h3
  rw [h2, h3]

theorem processChunk_append (cs : ChatStreamState) (c1 c2 : List Nat) :
    processChunk cs (c1 ++ c2)
      = ((processChunk (processChunk cs c1).1 c2).1,
          (processChunk cs c1).2 ++ (processChunk (processChunk cs c1).1 c2).2) := by
  unfold processChunk
  simp only [decodeBytes_append]
  rw [← List.append_assoc cs.buffer]
  rw [splitFrames_append (cs.buffer ++ (decodeBytes cs.pending c1).2)]
  simp [List.filter_append]

theorem runChunksAux_join (chunks : List (List Nat)) :
    ∀ cs : ChatStreamState, splitFrames cs.buffer = ([], cs.buffer) →
      runChunksAux cs chunks = processChunk cs chunks.flatten := by
  induction chunks with
  | nil =>
      intro cs hinv
      simp [runChunksAux, processChunk, decodeBytes, hinv]
  | cons c rest ih =>
      intro cs hinv
      have hinv2 : splitFrames (processChunk cs c).1.buffer
          = ([], (processChunk cs c).1.buffer) := by
        unfold processChunk
        exact splitFrames_snd_idem _
      simp only [runChunksAux, List.flatten_cons, ih (processChunk cs c).1 hinv2]
      rw [processChunk_append]

theorem streamFrames_join (chunks : List (List Nat)) :
    streamFrames chunks = streamFrames [chunks.flatten] := by
  unfold streamFrames
  rw [runChunksAux_join chunks ⟨[], []⟩ rfl]
  simp [runChunksAux]

/-- Claim C1: chunk-boundary invariance of the chat stream decoder — for
every byte sequence and every partition of it into chunks, the decode loop
of sendChatMessageStream dispatches exactly the same callback sequence as
the whole sequence delivered as one chunk, for every behaviour of JSON.parse
and of the error field extraction.  The incremental text decoder is a
byte automaton, so no multi-byte character is ever split by a chunk
boundary, and the dangling tail is flushed once on close in both runs. -/
theorem chat_stream_chunk_invariance (jsonOk : List Nat → Bool)
    (errorFieldOf : List Nat → List Nat) (chunks : List (List Nat)) :
    runChatStream jsonOk errorFieldOf chunks
      = runChatStream jsonOk errorFieldOf [chunks.flatten] := by
  unfold runChatStream
  rw [streamFrames_join]

end ProcurementAI
